import Mathlib

/-!
Verification of the time-windowed, cache-aware parallel data-extraction
pipeline in `src/common/concurrent_data_downloader.py`.

Shallow embedding conventions:
* Instants of time are rationals (`ℚ`), measured in hours since an arbitrary
  epoch; a calendar day `d : ℤ` spans `[24*d, 24*(d+1))`.  The Python code
  carries instants as ISO strings with millisecond precision and compares
  them after `datetime.strptime`; the embedding works with the denoted time
  values directly.
* A SQL time clause is embedded as its satisfaction predicate on instants,
  a `Bool`-valued function `ℚ → Bool` (the query backend is opaque; only
  which instants a clause admits matters for the partitioning claims).
* Cache-file paths (`{ind}_{start}_{end}.pkl`, `{ind}_full.pkl`,
  `{ind}_extra.pkl`) are embedded as the inductive `CacheFile`; the
  date-and-hour components of the real path are represented by the absolute
  hour numbers they denote, which preserves the injectivity of the path
  scheme.
* `datetime` / `strptime` / `hashlib` / `ThreadPoolExecutor` are external
  library collaborators; their effects are embedded (day arithmetic on `ℤ`,
  a deterministic digest stand-in, the documented `ValueError` for a
  non-positive worker count) rather than re-implemented.
-/

/-- The three kinds of cache-file names produced by the partitioner
(`append_query` / `handle_index_without_date`):
a regular window file `{ind}_{startHour}_{endHour}.pkl` (hours are the
absolute hour numbers denoted by the pre-intersection window strings),
a whole-partition file `{ind}_full.pkl`, and a remainder file
`{ind}_extra.pkl`. -/
inductive CacheFile where
  | window (ind : String) (startHour endHour : ℤ)
  | full (ind : String)
  | extra (ind : String)
deriving DecidableEq, Repr

/-- The partition (index) name a cache file belongs to. -/
def CacheFile.indexName : CacheFile → String
  | .window ind _ _ => ind
  | .full ind => ind
  | .extra ind => ind

/-- One unit of work of the pipeline: the time clause of the query (as its
satisfaction predicate on instants) plus the cache-file target.  Mirrors the
`[query, temp_filename]` pairs appended to `result_queries`. -/
structure SubQuery where
  clause : ℚ → Bool
  file : CacheFile

/-- Whether a SubQuery is an "extra" (remainder) query, recognizable by its
`_extra.pkl` cache-file name. -/
def SubQuery.isExtraFile (sq : SubQuery) : Bool :=
  match sq.file with
  | .extra _ => true
  | _ => false

/-- Satisfaction predicate of the `regular` entry of `HOUR_CONDITION_TEMPLATE`:
`f >= start AND f < end`, with the upper comparison relaxed to `<=` when
`append_query` performs its `replace("<", "<=")` (the `incl` flag). -/
def regularClause (lo hi : ℚ) (incl : Bool) : ℚ → Bool :=
  fun t => decide (lo ≤ t) && (if incl then decide (t ≤ hi) else decide (t < hi))

/-- Satisfaction predicate of the `extra` entry of `HOUR_CONDITION_TEMPLATE`:
`(f < ds OR f >= de)`, conjoined — exactly when the global range is set —
with the strict regular clause `f >= gte AND f < lte` that `append_query`
appends for extra queries. -/
def extraClause (ds de : ℚ) (g : Option (ℚ × ℚ)) : ℚ → Bool :=
  fun t =>
    (decide (t < ds) || decide (de ≤ t)) &&
      (match g with
       | some (gte, lte) => decide (gte ≤ t) && decide (t < lte)
       | none => true)

/-- `intersect_time_ranges` from the source: intersection of `[start1, end1]`
and `[start2, end2]` plus the flag telling which end "won" (`true` when
`end2`, the global `lte`, is the minimum — including ties).  The intersection
is returned when `max_start <= min_end` (so a degenerate single-instant
intersection is NOT dropped). -/
def intersect_time_ranges (start1 end1 start2 end2 : ℚ) :
    Option (ℚ × ℚ) × Bool :=
  let maxStart := max start1 start2
  let p := if end1 < end2 then (end1, false) else (end2, true)
  (if maxStart ≤ p.1 then some (maxStart, p.1) else none, p.2)

/-- `append_query` from the source.  For a regular window the clause is the
window `[start_time, end_time)`, intersected with the global range when one
is set; the SubQuery is dropped (`none`) when the intersection is empty, and
the upper comparison is relaxed to `<=` when the global `lte` provided the
intersection's end (the `is_equality` flag).  The cache-file name always uses
the pre-intersection window bounds (the source computes
`start_time_filename` before overwriting `start_time_str`).  For an extra
query the passed window bounds are ignored (the source overwrites them with
the partition span `[start_date, end_date)`) and the clause is the
complement-of-span clause, conjoined with the global range when set. -/
def append_query (ind : String) (g : Option (ℚ × ℚ)) (startDay endDay : ℤ)
    (start_time end_time : ℤ) (is_extra_query : Bool) : Option SubQuery :=
  if is_extra_query then
    some ⟨extraClause ((24 * startDay : ℤ) : ℚ) ((24 * endDay : ℤ) : ℚ) g, .extra ind⟩
  else
    match g with
    | none =>
        some ⟨regularClause (start_time : ℚ) (end_time : ℚ) false,
              .window ind start_time end_time⟩
    | some (gte, lte) =>
        match intersect_time_ranges (start_time : ℚ) (end_time : ℚ) gte lte with
        | (none, _) => none
        | (some (lo, hi), is_equality) =>
            some ⟨regularClause lo hi is_equality, .window ind start_time end_time⟩

/-- The hour values walked by the inner `for hour in range(0, 25, time_step)`
loop of `create_queries_for_date_range` that actually emit a window: Python's
`range(0, 25, w)` is the arithmetic progression `0, w, 2w, …` below 25
(`(24 + w) / w` elements), and the `end_time_str == start_time_str` guard
skips exactly the value `24` (whose window formats to the empty string pair),
here the `h < 24` filter.  The `break` after a clamped window is redundant:
the progression holds no element beyond it. -/
def day_hours (w : ℕ) : List ℕ :=
  (List.range' 0 ((24 + w) / w) w).filter (fun h => decide (h < 24))

/-- The regular windows emitted for one calendar day `day` by
`create_queries_for_date_range`: window `h` spans absolute hours
`[24*day + h, 24*day + (h+w))`, with the end clamped to the next midnight
(`get_time_strings` formats it as the next day at `00:00`) when `h + w`
exceeds 24. -/
def day_regular_queries (w : ℕ) (ind : String) (g : Option (ℚ × ℚ))
    (startDay endDay day : ℤ) : List SubQuery :=
  (day_hours w).filterMap (fun h : ℕ =>
    append_query ind g startDay endDay (24 * day + (h : ℤ))
      (24 * day + (if 24 < h + w then 24 else ((h : ℤ) + (w : ℤ)))) false)

/-- The `while current_day < end_date` loop of `create_queries_for_date_range`,
with the remaining number of day iterations as fuel.  Per day: the regular
windows; then, for a non-compressed (day-granularity) index, one extra query
— unconditionally, whatever the global range; then, after advancing the day,
for a compressed (month-granularity) index one extra query exactly when the
advanced day reaches `end_date`.  The stale window bounds the source passes
to the extra-query call are ignored by `append_query` (here `0 0`). -/
def create_queries_loop (w : ℕ) (ind : String) (g : Option (ℚ × ℚ))
    (is_compressed : Bool) (startDay endDay : ℤ) (fuel : ℕ) (current : ℤ) :
    List SubQuery :=
  match fuel with
  | 0 => []
  | fuel + 1 =>
    day_regular_queries w ind g startDay endDay current
      ++ (if is_compressed then []
          else (append_query ind g startDay endDay 0 0 true).toList)
      ++ (if is_compressed ∧ current + 1 = endDay then
            (append_query ind g startDay endDay 0 0 true).toList
          else [])
      ++ create_queries_loop w ind g is_compressed startDay endDay fuel (current + 1)

/-- `create_queries_for_date_range` from the source, for the date span
`[startDay, endDay)` in days. -/
def create_queries_for_date_range (w : ℕ) (ind : String) (g : Option (ℚ × ℚ))
    (is_compressed : Bool) (startDay endDay : ℤ) : List SubQuery :=
  create_queries_loop w ind g is_compressed startDay endDay
    (endDay - startDay).toNat startDay

/-- `handle_index_without_date` from the source: a single whole-partition
SubQuery with cache file `{ind}_full.pkl`; when the global range is set its
clause is the regular range clause with BOTH comparisons made inclusive
(`replace("<", "<=")` rewrites the single `<` of the template; `>=` is
untouched), giving `gte <= t <= lte`; otherwise no time clause at all. -/
def handle_index_without_date (ind : String) (g : Option (ℚ × ℚ)) : SubQuery :=
  ⟨(match g with
    | some (gte, lte) => fun t => decide (gte ≤ t) && decide (t ≤ lte)
    | none => fun _ => true), .full ind⟩

/-- The result of splitting an index name on `-` and parsing the date token
with `parse_date_from_index` (Python `datetime.strptime`, an external
library): no parseable token at all, a day-granularity token `YYYY.MM.DD`
(spanning one day), or a month-granularity token `YYYY.MM` (spanning the
whole month, `numDays ∈ [28, 31]` days, `end_date` being the first day of
the next month).  Days are absolute day numbers. -/
inductive IndexKind where
  | dateless
  | daily (day : ℤ)
  | monthly (firstDay : ℤ) (numDays : ℕ)
deriving DecidableEq, Repr

/-- One configured source partition: its name together with its parsed date
token. -/
structure IndexInfo where
  name : String
  kind : IndexKind
deriving DecidableEq, Repr

/-- `prepare_queries` from the source, minus the final `random.shuffle`
(a permutation, irrelevant to the membership and count properties proved
here).  NOTE the faithful early `return result_queries` inside the `for ind
in configurator.indexes` loop: an index without a date token returns the list
built so far immediately, dropping every remaining index (and skipping the
shuffle). -/
def prepare_queries (w : ℕ) (g : Option (ℚ × ℚ)) :
    List IndexInfo → List SubQuery
  | [] => []
  | i :: rest =>
    match i.kind with
    | .dateless => [handle_index_without_date i.name g]
    | .daily d =>
        create_queries_for_date_range w i.name g false d (d + 1)
          ++ prepare_queries w g rest
    | .monthly d n =>
        create_queries_for_date_range w i.name g true d (d + n)
          ++ prepare_queries w g rest

/-- A character allowed inside a field identifier by the `validate_fields`
regular expression character class `[\w.$@]` (ASCII reading of `\w`). -/
def isFieldChar (c : Char) : Bool :=
  c.isAlphanum || c = '_' || c = '.' || c = '$' || c = '@'

/-- The backquote character (code point 96), named via its code point. -/
def backquoteChar : Char := Char.ofNat 96

/-- One alternative of the `validate_fields` grammar: a backquote-quoted
identifier or a bare identifier, in both cases a nonempty run of field
characters (a backquote is not a field character, so a stray backquote in a
bare token is rejected by the character check). -/
def isFieldToken (tok : List Char) : Bool :=
  match tok with
  | [] => false
  | c :: rest =>
    if c = backquoteChar then
      decide (0 < rest.dropLast.length) && rest.dropLast.all isFieldChar &&
        decide (rest.getLast? = some backquoteChar)
    else
      (c :: rest).all isFieldChar

/-- Splitting a character list on the two-character separator `", "`,
scanning left to right (the behaviour of splitting the fields string on that
literal separator). -/
def split_on_comma_space : List Char → List (List Char)
  | [] => [[]]
  | ',' :: ' ' :: rest => [] :: split_on_comma_space rest
  | c :: rest =>
    match split_on_comma_space rest with
    | [] => [[c]]
    | t :: ts => (c :: t) :: ts

/-- `validate_fields` from the source: the fields string must match
`^(tok)(, (tok))*$`.  Since a token can contain neither a comma nor a space,
splitting on the literal separator `", "` and checking every part is
equivalent to the regular expression (up to Python's `$`-before-trailing-
newline quirk, irrelevant here). -/
def validate_fields (fields : String) : Bool :=
  (split_on_comma_space fields.toList).all (fun tok => isFieldToken tok)

/-- `set_gte_lte` from the source.  Its very first statement returns
`(None, None)` whenever EITHER bound is `None` — before any type checking —
so a partially specified time range is silently collapsed to an absent one,
never an error.  (The `ValueError` branches fire only for non-`datetime`,
non-`None` arguments, which the typed embedding cannot represent; timezone
conversion and string formatting preserve the denoted instants.) -/
def set_gte_lte (gte lte : Option ℚ) : Option ℚ × Option ℚ :=
  match gte, lte with
  | some g, some l => (some g, some l)
  | _, _ => (none, none)

/-- The state of a `QueryConfigurator` after `__init__` (logging-only fields
`verbose` / `logger` omitted; `query_template` is determined by the stored
fields). -/
structure QueryConfig where
  indexes : List String
  fields : String
  name_of_type : String
  event_type : String
  extra_condition : String
  output_filename : String
  ascending : Bool
  temp_files : Bool
  return_df : Bool
  compress_df : Bool
  time_step : ℤ
  gte : Option ℚ
  lte : Option ℚ
  date_range : Option String
  ignore_exceptions : Bool
  isin_container : Bool
deriving DecidableEq, Repr

/-- `QueryConfigurator.__init__` from the source, as a fallible constructor.
In the typed embedding the `validate_type` calls cannot fail; the only
remaining failure is `validate_fields`.  Stored state: a default output
filename `{event_type}_out.csv` when none is given; `temp_files` forced to
`False` in container mode (`temp_files and not isin_container`); the time
bounds via `set_gte_lte`; and `time_step` replaced by the default 4 whenever
it lies outside `[1, 12]`. -/
def QueryConfigurator.build (indexes : List String)
    (fields name_of_type event_type extra_condition : String)
    (output_filename : Option String)
    (ascending temp_files return_df compress_df : Bool) (time_step : ℤ)
    (gte lte : Option ℚ) (date_range : Option String)
    (ignore_exceptions isin_container : Bool) : Except String QueryConfig :=
  if validate_fields fields = false then
    .error ("Invalid format: " ++ fields)
  else
    let gl := set_gte_lte gte lte
    .ok { indexes := indexes
          fields := fields
          name_of_type := name_of_type
          event_type := event_type
          extra_condition := extra_condition
          output_filename := output_filename.getD (event_type ++ "_out.csv")
          ascending := ascending
          temp_files := temp_files && !isin_container
          return_df := return_df
          compress_df := compress_df
          time_step := if 12 < time_step ∨ time_step < 1 then 4 else time_step
          gte := gl.1
          lte := gl.2
          date_range := date_range
          ignore_exceptions := ignore_exceptions
          isin_container := isin_container }

/-- The string hashed by `generate_unique_dir_name`: the bare concatenation
`fields + name_of_type + event_type + extra_condition + str(time_step)`,
with no separators between the components. -/
def cache_base_string (c : QueryConfig) : String :=
  c.fields ++ c.name_of_type ++ c.event_type ++ c.extra_condition
    ++ toString c.time_step

/-- Deterministic stand-in for the external `hashlib.md5(...).hexdigest()`
primitive.  Every theorem below depends only on the digest being a function
of its input string, which holds for MD5 as well. -/
def md5_digest_model (s : String) : String :=
  toString s.hash

/-- `generate_unique_dir_name` from the source: the digest of the
concatenated configuration parameters, parameterized by the digest function
(MD5 in the source). -/
def generate_unique_dir_name (digest : String → String) (c : QueryConfig) :
    String :=
  digest (cache_base_string c)

/-- What the backend call `self.get_dataframe(query, ...)` can do for one
SubQuery: return an empty table, return rows, or raise. -/
inductive BackendResult where
  | empty
  | rows
  | raises
deriving DecidableEq, Repr

/-- Observable steps of one `download_data_parallel` run, in program order:
backend fetches and cache-file writes from `_process_single_query`; the
completed output artifact; the four teardown actions of `finalize_process`;
and the `os._exit(1)` fail-fast abort. -/
inductive DownloadEvent where
  | backendCall (f : CacheFile)
  | cacheWrite (f : CacheFile)
  | outputWrite
  | stopTelemetry
  | emitSummary
  | moveLog
  | deleteCacheDir
  | processExit
deriving DecidableEq, Repr

/-- Whether an event is a backend fetch. -/
def DownloadEvent.isBackendCall : DownloadEvent → Bool
  | .backendCall _ => true
  | _ => false

/-- Whether an event is one of the four teardown actions of
`finalize_process`. -/
def DownloadEvent.isTeardown : DownloadEvent → Bool
  | .stopTelemetry => true
  | .emitSummary => true
  | .moveLog => true
  | .deleteCacheDir => true
  | _ => false

/-- Whether an event is the completed-output event. -/
def DownloadEvent.isOutput : DownloadEvent → Bool
  | .outputWrite => true
  | _ => false

/-- How one `download_data_parallel` run ends: normal return, a propagated
exception (the `except` block logs and re-raises), or the `os._exit(1)`
process abort. -/
inductive RunOutcome where
  | ok
  | error
  | aborted
deriving DecidableEq, Repr

/-- The run-relevant state of `download_data_parallel`: the flags read from
the configurator, whether the cache directory pre-existed
(`create_cache_dir`'s `is_old_cache`), and whether the aggregation/writing
stage raises. -/
structure RunConfig where
  ignore_exceptions : Bool
  isin_container : Bool
  temp_files : Bool
  is_old_cache : Bool
  return_df : Bool
  aggregation_fails : Bool
deriving DecidableEq, Repr

/-- The run-relevant state induced by a constructed configuration. -/
def RunConfig.ofConfig (c : QueryConfig) (is_old_cache aggregation_fails : Bool) :
    RunConfig :=
  { ignore_exceptions := c.ignore_exceptions
    isin_container := c.isin_container
    temp_files := c.temp_files
    is_old_cache := is_old_cache
    return_df := c.return_df
    aggregation_fails := aggregation_fails }

/-- The per-SubQuery state machine of `_process_single_query`, folded over
the prepared SubQuery list (the thread pool is abstracted to a sequential
fold; the claims below concern exit paths, call counts and the cache, none
of which depend on interleaving).  Per cache file: a cache hit is counted
successful with no backend call; otherwise the backend is called — an empty
result writes no cache file, rows are pickled to the cache file, and an
exception either continues (`ignore_exceptions`) or triggers the `os._exit`
abort, which stops all processing (`true` in the third component). -/
def process_queries (ignore_exceptions : Bool)
    (backend : CacheFile → BackendResult) :
    List CacheFile → List CacheFile →
      List DownloadEvent × List CacheFile × Bool
  | [], cache => ([], cache, false)
  | f :: rest, cache =>
    if f ∈ cache then
      process_queries ignore_exceptions backend rest cache
    else
      match backend f with
      | .empty =>
          (.backendCall f
              :: (process_queries ignore_exceptions backend rest cache).1,
           (process_queries ignore_exceptions backend rest cache).2)
      | .rows =>
          (.backendCall f :: .cacheWrite f
              :: (process_queries ignore_exceptions backend rest (f :: cache)).1,
           (process_queries ignore_exceptions backend rest (f :: cache)).2)
      | .raises =>
          if ignore_exceptions then
            (.backendCall f
                :: (process_queries ignore_exceptions backend rest cache).1,
             (process_queries ignore_exceptions backend rest cache).2)
          else
            ([.backendCall f], cache, true)

/-- The teardown actions `finalize_process` performs, in order: stop and
join the telemetry thread (only outside a container), emit the summary,
relocate the query log file (only with `temp_files`), and delete the cache
directory (only when it is ephemeral — `not temp_files` — and was newly
created — `not is_old_cache`). -/
def finalize_events (rc : RunConfig) : List DownloadEvent :=
  (if rc.isin_container then [] else [.stopTelemetry])
    ++ [.emitSummary]
    ++ (if rc.temp_files then [.moveLog] else [])
    ++ (if !rc.temp_files && !rc.is_old_cache then [.deleteCacheDir] else [])

/-- The on-disk cache after `finalize_process`: deleting the ephemeral,
newly created cache directory removes every cache file. -/
def cache_after_finalize (rc : RunConfig) (cache : List CacheFile) :
    List CacheFile :=
  if !rc.temp_files && !rc.is_old_cache then [] else cache

/-- The result of one `download_data_parallel` run: its observable event
trace, the cache files present on disk afterwards, and how it ended. -/
structure RunResult where
  events : List DownloadEvent
  cache : List CacheFile
  outcome : RunOutcome
deriving Repr

/-- `download_data_parallel` from the source, over an already prepared
SubQuery (cache-file) list.  The worker count is
`min(num_threads, len(queries))`; `ThreadPoolExecutor` raises `ValueError`
for a non-positive `max_workers`, which the surrounding `try` re-raises
after running the `finally` teardown and before any output is written.
Otherwise the SubQueries are processed; the `os._exit(1)` abort terminates
the process with NO teardown (it bypasses `finally`); a completed pool is
followed by aggregation/writing — which, when it raises, still reaches the
`finally` teardown — and on full success by the output artifact (a returned
table in `return_df` mode writes no file). -/
def download_data_parallel (rc : RunConfig)
    (backend : CacheFile → BackendResult) (num_threads : ℕ)
    (cache : List CacheFile) (queries : List CacheFile) : RunResult :=
  if min num_threads queries.length = 0 then
    ⟨finalize_events rc, cache_after_finalize rc cache, .error⟩
  else
    match process_queries rc.ignore_exceptions backend queries cache with
    | (evs, cache1, true) => ⟨evs ++ [.processExit], cache1, .aborted⟩
    | (evs, cache1, false) =>
      if rc.aggregation_fails then
        ⟨evs ++ finalize_events rc, cache_after_finalize rc cache1, .error⟩
      else
        ⟨evs ++ (if rc.return_df then [] else [.outputWrite])
              ++ finalize_events rc,
         cache_after_finalize rc cache1, .ok⟩

/-- Whether an event is one a worker (`_process_single_query`) can produce:
a backend fetch or a cache-file write. -/
def DownloadEvent.isWorkerEvent : DownloadEvent → Bool
  | .backendCall _ => true
  | .cacheWrite _ => true
  | _ => false

/-- The stored `time_step` of a configurator built with fixed valid
parameters and the given window size (`None` when construction fails). -/
def constructed_time_step (ts : ℤ) : Option ℤ :=
  match QueryConfigurator.build ["logs-2024.01.01"] "a, b" "EventType" "evt" ""
      none true false false false ts none none none false false with
  | .ok c => some c.time_step
  | .error _ => none

/-- The configuration produced when exactly one time bound is supplied (used
against claim C6): both stored bounds are absent. -/
def partialBoundsConfig : QueryConfig :=
  { indexes := ["logs-2024.01.01"], fields := "a, b", name_of_type := "EventType",
    event_type := "evt", extra_condition := "", output_filename := "evt_out.csv",
    ascending := true, temp_files := false, return_df := false, compress_df := false,
    time_step := 4, gte := none, lte := none, date_range := none,
    ignore_exceptions := false, isin_container := false }

/-- A configuration with a time range and an output file name. -/
def cfgTimeRangeA : QueryConfig :=
  { indexes := ["logs-2024.01.01"], fields := "a, b", name_of_type := "EventType",
    event_type := "evt", extra_condition := "", output_filename := "one.csv",
    ascending := true, temp_files := true, return_df := false, compress_df := false,
    time_step := 4, gte := some 2, lte := some 8, date_range := none,
    ignore_exceptions := false, isin_container := false }

/-- `cfgTimeRangeA` with a different time range and output destination. -/
def cfgTimeRangeB : QueryConfig :=
  { cfgTimeRangeA with output_filename := "two.csv", gte := some 3, lte := some 9 }

/-- First half of a cache-key collision: fields `a`, filter field `bT`. -/
def cfgCollideA : QueryConfig :=
  { indexes := ["logs-2024.01.01"], fields := "a", name_of_type := "bT",
    event_type := "evt", extra_condition := "", output_filename := "o.csv",
    ascending := true, temp_files := false, return_df := false, compress_df := false,
    time_step := 4, gte := none, lte := none, date_range := none,
    ignore_exceptions := false, isin_container := false }

/-- Second half of the collision: fields `ab`, filter field `T` — a different
(fields, filter-field) pair whose concatenation coincides with
`cfgCollideA`'s. -/
def cfgCollideB : QueryConfig :=
  { cfgCollideA with fields := "ab", name_of_type := "T" }

/-- A backend whose every call raises. -/
def backendAlwaysRaises : CacheFile → BackendResult := fun _ => .raises

/-- A backend whose every call returns rows. -/
def backendAlwaysRows : CacheFile → BackendResult := fun _ => .rows

/-- A backend whose every call returns an empty table. -/
def backendAlwaysEmpty : CacheFile → BackendResult := fun _ => .empty

/-- The default strict run state: `ignore_exceptions=False`, telemetry on,
persistent cache requested, newly created cache directory. -/
def rcStrict : RunConfig := ⟨false, false, true, false, false, false⟩

/-- A tolerant run state with persistent caching (`temp_files=True`),
newly created cache directory. -/
def rcPersistent : RunConfig := ⟨true, false, true, false, false, false⟩

/-- Helper: a partially specified time range is collapsed by `set_gte_lte`
to an absent one. -/
theorem set_gte_lte_partial {gte lte : Option ℚ} (hp : gte = none ∨ lte = none) :
    set_gte_lte gte lte = (none, none) := by
  cases gte <;> cases lte <;> simp_all [set_gte_lte]

/-- C8: constructing a configurator with window size 0, 13 or 4 stores the
effective window sizes 4, 4, 4: every integer outside `[1, 12]` falls back
to the default 4, every integer inside `[1, 12]` is kept, and the stored
window size always lies in `[1, 12]`. -/
theorem c8_time_step_clamp (ts : ℤ) :
    ((ts < 1 ∨ 12 < ts) → constructed_time_step ts = some 4) ∧
    ((1 ≤ ts ∧ ts ≤ 12) → constructed_time_step ts = some ts) ∧
    (∀ s, constructed_time_step ts = some s → 1 ≤ s ∧ s ≤ 12) := by
  have h : constructed_time_step ts
      = some (if 12 < ts ∨ ts < 1 then 4 else ts) := rfl
  rw [h]
  by_cases hc : 12 < ts ∨ ts < 1
  · rw [if_pos hc]
    refine ⟨fun _ => rfl, fun hin => absurd hc (by omega), fun s hs => ?_⟩
    cases hs; omega
  · rw [if_neg hc]
    refine ⟨fun hout => absurd hout (by omega), fun _ => rfl, fun s hs => ?_⟩
    cases hs; omega

/-- C8 witness: the clamp evaluated at the window sizes 0, 13 and 4. -/
theorem c8_time_step_clamp_witness :
    constructed_time_step 0 = some 4 ∧ constructed_time_step 13 = some 4 ∧
      constructed_time_step 4 = some 4 :=
  ⟨(c8_time_step_clamp 0).1 (Or.inl (by norm_num)),
   (c8_time_step_clamp 13).1 (Or.inr (by norm_num)),
   (c8_time_step_clamp 4).2.1 ⟨by norm_num, by norm_num⟩⟩

/-- C6 counterexample: constructing a configurator with `gte` set and `lte`
absent — a partially specified time range — succeeds (no
`InvalidConfiguration` error is raised), storing both bounds as absent. -/
theorem c6_counterexample :
    QueryConfigurator.build ["logs-2024.01.01"] "a, b" "EventType" "evt" "" none
        true false false false 4 (some 5) none none false false
      = .ok partialBoundsConfig ∧
    partialBoundsConfig.gte = none ∧ partialBoundsConfig.lte = none :=
  ⟨rfl, rfl, rfl⟩

/-- C6 amended: whenever exactly one (or either) of the time bounds is
absent, construction does not raise; `set_gte_lte` silently drops the lone
bound and the configuration stores both bounds as absent. -/
theorem c6_partial_bounds_dropped (indexes : List String)
    (fields nt et ec : String) (out : Option String) (asc tf rdf cdf : Bool)
    (ts : ℤ) (gte lte : Option ℚ) (dr : Option String) (ie ic : Bool)
    (hf : validate_fields fields = true) (hp : gte = none ∨ lte = none) :
    (QueryConfigurator.build indexes fields nt et ec out asc tf rdf cdf ts gte
        lte dr ie ic).toOption.map (fun c => (c.gte, c.lte))
      = some (none, none) := by
  unfold QueryConfigurator.build
  rw [hf, set_gte_lte_partial hp]
  rfl

/-- C6 witness: the amended statement at a concrete partially specified
range. -/
theorem c6_partial_bounds_dropped_witness :
    (QueryConfigurator.build ["logs-2024.01.01"] "a, b" "EventType" "evt" "" none
        true false false false 4 (some 5) none none false
        false).toOption.map (fun c => (c.gte, c.lte)) = some (none, none) :=
  c6_partial_bounds_dropped _ _ _ _ _ _ _ _ _ _ _ _ _ _ _ _ rfl (Or.inr rfl)

/-- C5 amended: the cache directory name is a function of exactly the tuple
(fields, filter field, filter value, extra condition, window size) — two
configurations agreeing on those five parameters (in particular, differing
only in time range or output destination) map to the same directory name,
for any digest function. -/
theorem c5_cache_key_determined_by_tuple (digest : String → String)
    (c1 c2 : QueryConfig) (h1 : c1.fields = c2.fields)
    (h2 : c1.name_of_type = c2.name_of_type) (h3 : c1.event_type = c2.event_type)
    (h4 : c1.extra_condition = c2.extra_condition)
    (h5 : c1.time_step = c2.time_step) :
    generate_unique_dir_name digest c1 = generate_unique_dir_name digest c2 := by
  unfold generate_unique_dir_name cache_base_string
  rw [h1, h2, h3, h4, h5]

/-- C5 witness: two configurations differing only in time range and output
destination resolve to the same cache directory name. -/
theorem c5_cache_key_determined_by_tuple_witness :
    generate_unique_dir_name md5_digest_model cfgTimeRangeA
      = generate_unique_dir_name md5_digest_model cfgTimeRangeB :=
  c5_cache_key_determined_by_tuple md5_digest_model cfgTimeRangeA cfgTimeRangeB
    rfl rfl rfl rfl rfl

/-- C5 counterexample: the map is NOT injective on the five-parameter tuple.
Both collision configurations are reachable through the constructor; they
differ in fields AND in filter field, yet the separator-less concatenation
hashed by `generate_unique_dir_name` is the identical string `abTevt4`, so
they resolve to the same directory name (for MD5 just as for the model
digest, since the hashed strings are equal). -/
theorem c5_counterexample :
    QueryConfigurator.build ["logs-2024.01.01"] "a" "bT" "evt" "" (some "o.csv")
        true false false false 4 none none none false false = .ok cfgCollideA ∧
    QueryConfigurator.build ["logs-2024.01.01"] "ab" "T" "evt" "" (some "o.csv")
        true false false false 4 none none none false false = .ok cfgCollideB ∧
    cfgCollideA.fields ≠ cfgCollideB.fields ∧
    cfgCollideA.name_of_type ≠ cfgCollideB.name_of_type ∧
    cache_base_string cfgCollideA = cache_base_string cfgCollideB ∧
    generate_unique_dir_name md5_digest_model cfgCollideA
      = generate_unique_dir_name md5_digest_model cfgCollideB :=
  ⟨rfl, rfl, by decide, by decide, rfl, rfl⟩

/-- C9: a configurator built with `isin_container=True` stores
`temp_files=False` whatever the caller passed, and consequently teardown of a
run whose cache directory did not pre-exist performs the cache-directory
deletion even though the caller asked for persistent intermediate files. -/
theorem c9_container_mode_forces_ephemeral_cache (indexes : List String)
    (fields nt et ec : String) (out : Option String) (asc tf rdf cdf : Bool)
    (ts : ℤ) (gte lte : Option ℚ) (dr : Option String) (ie : Bool)
    (aggregation_fails : Bool) (hf : validate_fields fields = true) :
    (QueryConfigurator.build indexes fields nt et ec out asc tf rdf cdf ts gte
        lte dr ie true).toOption.map
        (fun c => (c.temp_files,
          (finalize_events (RunConfig.ofConfig c false aggregation_fails)).contains
            .deleteCacheDir))
      = some (false, true) := by
  unfold QueryConfigurator.build
  rw [hf]
  simp [RunConfig.ofConfig, finalize_events, Except.toOption]

/-- C9 witness: container mode with `temp_files=True` requested — the stored
flag is `False` and teardown deletes the new cache directory. -/
theorem c9_container_mode_forces_ephemeral_cache_witness :
    (QueryConfigurator.build ["logs-2024.01.01"] "a, b" "EventType" "evt" "" none
        true true false false 4 none none none false true).toOption.map
        (fun c => (c.temp_files,
          (finalize_events (RunConfig.ofConfig c false false)).contains
            .deleteCacheDir))
      = some (false, true) :=
  c9_container_mode_forces_ephemeral_cache _ _ _ _ _ _ _ _ _ _ _ _ _ _ _ _ rfl

/-- C2: evaluating `prepare_queries` at a partition list whose first index
has no date token.  The early `return` inside the index loop makes the
function emit ONLY the full SubQuery of the dateless index and drop the
dated index entirely — although the dated index alone would have produced a
nonempty SubQuery list.  This contradicts the claim (and the spec's
per-partition short-circuit): the dated partition gets no SubQuery at all. -/
theorem c2_dateless_index_drops_later_indexes :
    (prepare_queries 4 none
        [⟨"accounts", .dateless⟩, ⟨"events-2024.01.01", .daily 0⟩]).map (·.file)
      = [.full "accounts"] ∧
    0 < (prepare_queries 4 none [⟨"events-2024.01.01", .daily 0⟩]).length :=
  ⟨rfl, by decide⟩

/-- Helper: every event emitted by the worker fold is a backend call or a
cache write. -/
theorem process_queries_events_worker (ie : Bool)
    (backend : CacheFile → BackendResult) :
    ∀ (qs cache : List CacheFile),
      ∀ e ∈ (process_queries ie backend qs cache).1, e.isWorkerEvent = true := by
  intro qs
  induction qs with
  | nil => intro cache e he; simp [process_queries] at he
  | cons f rest ih =>
    intro cache e he
    rw [process_queries] at he
    split at he
    · exact ih cache e he
    · split at he
      · rcases List.mem_cons.mp he with rfl | h
        · rfl
        · exact ih cache e h
      · rcases List.mem_cons.mp he with rfl | h
        · rfl
        · rcases List.mem_cons.mp h with rfl | h2
          · rfl
          · exact ih (f :: cache) e h2
      · split at he
        · rcases List.mem_cons.mp he with rfl | h
          · rfl
          · exact ih cache e h
        · rcases List.mem_cons.mp he with rfl | h
          · rfl
          · simp at h

/-- Helper: every event of the teardown sequence is a teardown action. -/
theorem finalize_events_all_teardown (rc : RunConfig) :
    (finalize_events rc).all (·.isTeardown) = true := by
  rcases rc with ⟨ie, ic, tf, io, rdf, agg⟩
  cases ic <;> cases tf <;> cases io <;> rfl

/-- C10: with an empty prepared SubQuery list (as produced by an empty
partition list), `download_data_parallel` computes the worker count
`min(num_threads, 0) = 0`, the thread-pool creation raises, and the run ends
in the error outcome without a single backend call and without writing any
output artifact. -/
theorem c10_empty_query_list_fails (rc : RunConfig)
    (backend : CacheFile → BackendResult) (num_threads : ℕ)
    (cache : List CacheFile) (w : ℕ) (g : Option (ℚ × ℚ)) :
    prepare_queries w g [] = [] ∧
    (download_data_parallel rc backend num_threads cache []).outcome = .error ∧
    (download_data_parallel rc backend num_threads cache []).events.countP
      (·.isBackendCall) = 0 ∧
    (download_data_parallel rc backend num_threads cache []).events.countP
      (·.isOutput) = 0 := by
  have hres : download_data_parallel rc backend num_threads cache []
      = ⟨finalize_events rc, cache_after_finalize rc cache, .error⟩ := by
    unfold download_data_parallel
    simp
  rw [hres]
  refine ⟨rfl, rfl, ?_, ?_⟩ <;>
    · rw [List.countP_eq_zero]
      intro e he
      have := List.all_eq_true.mp (finalize_events_all_teardown rc) e he
      cases e <;> simp_all [DownloadEvent.isTeardown, DownloadEvent.isBackendCall,
        DownloadEvent.isOutput]

/-- C10 witness: the empty-query-list failure at a concrete run state. -/
theorem c10_empty_query_list_fails_witness :
    prepare_queries 4 none [] = [] ∧
    (download_data_parallel rcStrict backendAlwaysRows 10 [] []).outcome
      = .error ∧
    (download_data_parallel rcStrict backendAlwaysRows 10 [] []).events.countP
      (·.isBackendCall) = 0 ∧
    (download_data_parallel rcStrict backendAlwaysRows 10 [] []).events.countP
      (·.isOutput) = 0 :=
  c10_empty_query_list_fails rcStrict backendAlwaysRows 10 [] 4 none

/-- C3 amended: the `finalize_process` teardown sequence runs on the normal
completion path and on the aggregation/writing error path (the `finally`
block), but the `os._exit(1)` fail-fast abort terminates the process with no
teardown action at all. -/
theorem c3_teardown_skipped_only_on_fail_fast (rc : RunConfig)
    (backend : CacheFile → BackendResult) (num_threads : ℕ)
    (cache queries : List CacheFile) :
    ((download_data_parallel rc backend num_threads cache queries).outcome
        = .aborted →
      (download_data_parallel rc backend num_threads cache queries).events.countP
        (·.isTeardown) = 0) ∧
    ((download_data_parallel rc backend num_threads cache queries).outcome
        ≠ .aborted →
      finalize_events rc
        <:+ (download_data_parallel rc backend num_threads cache queries).events) := by
  unfold download_data_parallel
  by_cases hn : min num_threads queries.length = 0
  · rw [if_pos hn]
    exact ⟨fun h => by simp at h, fun _ => List.suffix_refl _⟩
  · rw [if_neg hn]
    rcases hp : process_queries rc.ignore_exceptions backend queries cache
      with ⟨evs, cache1, ab⟩
    cases ab
    · dsimp only
      by_cases hagg : rc.aggregation_fails
      · rw [if_pos hagg]
        exact ⟨fun h => by simp at h, fun _ => List.suffix_append _ _⟩
      · rw [if_neg hagg]
        refine ⟨fun h => by simp at h, fun _ => ?_⟩
        exact ⟨evs ++ (if rc.return_df then [] else [.outputWrite]),
          by simp [List.append_assoc]⟩
    · dsimp only
      refine ⟨fun _ => ?_, fun h => absurd rfl h⟩
      rw [List.countP_eq_zero]
      intro e he
      rcases List.mem_append.mp he with h | h
      · have hw := process_queries_events_worker rc.ignore_exceptions backend
          queries cache e (by rw [hp]; exact h)
        cases e <;> simp_all [DownloadEvent.isWorkerEvent, DownloadEvent.isTeardown]
      · rw [List.mem_singleton.mp h]
        decide

/-- C3 counterexample: the fail-fast abort (default `ignore_exceptions=False`,
one raising backend call) ends in the aborted outcome with NO teardown
event: the telemetry thread is not stopped, no summary is emitted, no log is
relocated, no cache directory is deleted — contradicting the claim that the
teardown sequence runs on every exit path. -/
theorem c3_counterexample :
    (download_data_parallel rcStrict backendAlwaysRaises 1 []
        [.full "logs-2024.01.01"]).outcome = .aborted ∧
    (download_data_parallel rcStrict backendAlwaysRaises 1 []
        [.full "logs-2024.01.01"]).events.countP (·.isTeardown) = 0 := by
  decide

/-- C3 witness: on a successfully completing run the full teardown sequence
is the tail of the event trace. -/
theorem c3_teardown_witness :
    finalize_events rcStrict
      <:+ (download_data_parallel rcStrict backendAlwaysRows 1 []
            [.full "logs-2024.01.01"]).events :=
  (c3_teardown_skipped_only_on_fail_fast rcStrict backendAlwaysRows 1 []
    [.full "logs-2024.01.01"]).2 (by decide)

/-- Helper: the worker fold never removes a file from the cache. -/
theorem process_queries_cache_monotone (ie : Bool)
    (backend : CacheFile → BackendResult) :
    ∀ (qs cache : List CacheFile) (f : CacheFile), f ∈ cache →
      f ∈ (process_queries ie backend qs cache).2.1 := by
  intro qs
  induction qs with
  | nil => intro cache f hf; exact hf
  | cons q rest ih =>
    intro cache f hf
    rw [process_queries]
    split
    · exact ih cache f hf
    · split
      · exact ih cache f hf
      · exact ih (q :: cache) f (List.mem_cons_of_mem _ hf)
      · split
        · exact ih cache f hf
        · exact hf

/-- Helper: when every backend call returns rows, the run is not aborted and
every processed SubQuery's cache file is present afterwards. -/
theorem process_queries_all_rows (ie : Bool)
    (backend : CacheFile → BackendResult) :
    ∀ (qs cache : List CacheFile), (∀ f ∈ qs, backend f = .rows) →
      (process_queries ie backend qs cache).2.2 = false ∧
      ∀ f ∈ qs, f ∈ (process_queries ie backend qs cache).2.1 := by
  intro qs
  induction qs with
  | nil => intro cache _; exact ⟨rfl, by simp⟩
  | cons q rest ih =>
    intro cache h
    have hq : backend q = .rows := h q (List.mem_cons_self _ _)
    rw [process_queries]
    by_cases hmem : q ∈ cache
    · rw [if_pos hmem]
      obtain ⟨h1, h2⟩ := ih cache (fun f hf => h f (List.mem_cons_of_mem _ hf))
      refine ⟨h1, fun f hf => ?_⟩
      rcases List.mem_cons.mp hf with rfl | hf'
      · exact process_queries_cache_monotone ie backend rest cache f hmem
      · exact h2 f hf'
    · rw [if_neg hmem, hq]
      obtain ⟨h1, h2⟩ := ih (q :: cache) (fun f hf => h f (List.mem_cons_of_mem _ hf))
      refine ⟨h1, fun f hf => ?_⟩
      rcases List.mem_cons.mp hf with rfl | hf'
      · exact process_queries_cache_monotone ie backend rest (f :: cache) f
          (List.mem_cons_self _ _)
      · exact h2 f hf'

/-- Helper: when every SubQuery's cache file is already present, the worker
fold performs nothing: no event, no cache change, no abort. -/
theorem process_queries_all_cached (ie : Bool)
    (backend : CacheFile → BackendResult) :
    ∀ (qs cache : List CacheFile), (∀ f ∈ qs, f ∈ cache) →
      process_queries ie backend qs cache = ([], cache, false) := by
  intro qs
  induction qs with
  | nil => intro cache _; rfl
  | cons q rest ih =>
    intro cache h
    rw [process_queries, if_pos (h q (List.mem_cons_self _ _))]
    exact ih cache (fun f hf => h f (List.mem_cons_of_mem _ hf))

/-- C4 amended: with persistent caching (`temp_files=True`) and a first run
in which every backend call RETURNS ROWS, a second run over the same
SubQuery list performs zero backend calls — every cache file exists after
the first run, so every SubQuery is a cache hit.  (The rows-only hypothesis
is necessary: an empty first-run result writes no cache file and is
re-queried, see the counterexample.) -/
theorem c4_second_run_skips_backend (rc : RunConfig)
    (backend : CacheFile → BackendResult) (num_threads : ℕ)
    (cache qs : List CacheFile) (hT : rc.temp_files = true)
    (hB : ∀ f ∈ qs, backend f = .rows) :
    ((download_data_parallel rc backend num_threads
        (download_data_parallel rc backend num_threads cache qs).cache
        qs).events.countP (·.isBackendCall)) = 0 := by
  have hkeep : ∀ c : List CacheFile, cache_after_finalize rc c = c := by
    intro c; unfold cache_after_finalize; rw [hT]; rfl
  have hfin0 : (finalize_events rc).countP (·.isBackendCall) = 0 := by
    rw [List.countP_eq_zero]
    intro e he
    have := List.all_eq_true.mp (finalize_events_all_teardown rc) e he
    cases e <;> simp_all [DownloadEvent.isTeardown, DownloadEvent.isBackendCall]
  by_cases hn : min num_threads qs.length = 0
  · conv_lhs => rw [download_data_parallel, if_pos hn]
    exact hfin0
  · obtain ⟨hab, hsub⟩ :=
      process_queries_all_rows rc.ignore_exceptions backend qs cache hB
    rcases hp : process_queries rc.ignore_exceptions backend qs cache
      with ⟨evs, cache1, ab⟩
    rw [hp] at hab hsub
    subst hab
    have hrun1 : (download_data_parallel rc backend num_threads cache qs).cache
        = cache1 := by
      unfold download_data_parallel
      rw [if_neg hn, hp]
      dsimp only
      by_cases hagg : rc.aggregation_fails
      · rw [if_pos hagg]; exact hkeep cache1
      · rw [if_neg hagg]; exact hkeep cache1
    rw [hrun1]
    unfold download_data_parallel
    rw [if_neg hn,
      process_queries_all_cached rc.ignore_exceptions backend qs cache1 hsub]
    dsimp only
    by_cases hagg : rc.aggregation_fails
    · rw [if_pos hagg]
      simpa using hfin0
    · rw [if_neg hagg]
      cases hrdf : rc.return_df
      · simpa [List.countP_append, DownloadEvent.isBackendCall] using hfin0
      · simpa using hfin0

/-- C4 counterexample: persistent caching, identical configuration twice,
but the single SubQuery's backend call returns an EMPTY result: the first
run writes no cache file, so the second run calls the backend again — one
backend call, not zero.  The SubQuery list is the one prepared for a
dateless partition. -/
theorem c4_counterexample :
    ((download_data_parallel rcPersistent backendAlwaysEmpty 10
        (download_data_parallel rcPersistent backendAlwaysEmpty 10 []
          ((prepare_queries 4 none [⟨"accounts", .dateless⟩]).map (·.file))).cache
        ((prepare_queries 4 none [⟨"accounts", .dateless⟩]).map
          (·.file))).events.countP (·.isBackendCall)) = 1 := by
  decide

/-- C4 witness: the amended statement at a concrete rows-returning run. -/
theorem c4_second_run_skips_backend_witness :
    ((download_data_parallel rcPersistent backendAlwaysRows 10
        (download_data_parallel rcPersistent backendAlwaysRows 10 []
          [.full "accounts"]).cache [.full "accounts"]).events.countP
      (·.isBackendCall)) = 0 :=
  c4_second_run_skips_backend rcPersistent backendAlwaysRows 10 [] [.full "accounts"]
    rfl (fun _ _ => rfl)

/-- Helper: a regular (non-extra) `append_query`, when it emits, emits a
window cache file. -/
theorem append_query_regular_file (ind : String) (g : Option (ℚ × ℚ))
    (startDay endDay s e : ℤ) (sq : SubQuery)
    (h : append_query ind g startDay endDay s e false = some sq) :
    sq.file = .window ind s e := by
  unfold append_query at h
  simp only [Bool.false_eq_true, if_false] at h
  split at h
  · cases h; rfl
  · split at h
    · cases h
    · cases h; rfl

/-- Helper: the regular windows of a day contain no extra-file SubQuery. -/
theorem day_regular_queries_no_extra (w : ℕ) (ind : String)
    (g : Option (ℚ × ℚ)) (startDay endDay day : ℤ) :
    (day_regular_queries w ind g startDay endDay day).countP (·.isExtraFile)
      = 0 := by
  rw [List.countP_eq_zero]
  intro sq hsq
  rcases List.mem_filterMap.mp hsq with ⟨h, _, happ⟩
  have hfile := append_query_regular_file _ _ _ _ _ _ _ happ
  simp [SubQuery.isExtraFile, hfile]

/-- Helper: an extra `append_query` always emits exactly one extra-file
SubQuery. -/
theorem append_query_extra_singleton (ind : String) (g : Option (ℚ × ℚ))
    (startDay endDay s e : ℤ) :
    ((append_query ind g startDay endDay s e true).toList).countP
      (·.isExtraFile) = 1 := by
  rfl

/-- Helper: for a compressed (month) index the day loop emits exactly one
extra SubQuery, at its last iteration. -/
theorem create_queries_loop_extra_count_compressed (w : ℕ) (ind : String)
    (g : Option (ℚ × ℚ)) (startDay endDay : ℤ) :
    ∀ (fuel : ℕ) (current : ℤ), current + fuel = endDay → 0 < fuel →
      (create_queries_loop w ind g true startDay endDay fuel current).countP
        (·.isExtraFile) = 1 := by
  intro fuel
  induction fuel with
  | zero => intro current _ hf; omega
  | succ n ih =>
    intro current h _
    rw [create_queries_loop]
    rcases Nat.eq_zero_or_pos n with hn | hn
    · subst hn
      have hend : current + 1 = endDay := by omega
      simp [List.countP_append, day_regular_queries_no_extra, hend,
        create_queries_loop, append_query_extra_singleton]
    · have hend : current + 1 ≠ endDay := by omega
      have hrec := ih (current + 1) (by omega) hn
      simp [List.countP_append, day_regular_queries_no_extra, hend, hrec]

/-- C7 amended: for a day-granularity partition the extra SubQuery is
emitted exactly once UNCONDITIONALLY — also when no global time range is set
(the global range, when present, is only conjoined into the extra clause);
for a month-granularity partition the extra SubQuery is emitted exactly once
at the end of the whole month, not once per day. -/
theorem c7_extra_query_emission (w : ℕ) (ind : String) (g : Option (ℚ × ℚ))
    (d : ℤ) (n : ℕ) (hn : 1 ≤ n) :
    (create_queries_for_date_range w ind g false d (d + 1)).countP
      (·.isExtraFile) = 1 ∧
    (create_queries_for_date_range w ind g true d (d + n)).countP
      (·.isExtraFile) = 1 := by
  constructor
  · unfold create_queries_for_date_range
    have h1 : (d + 1 - d).toNat = 1 := by omega
    rw [h1, create_queries_loop]
    simp [List.countP_append, day_regular_queries_no_extra,
      append_query_extra_singleton, create_queries_loop]
  · unfold create_queries_for_date_range
    have h1 : ((d + n) - d).toNat = n := by omega
    rw [h1]
    exact create_queries_loop_extra_count_compressed w ind g d (d + n) n d
      (by omega) (by omega)

/-- C7 witness: the amended statement for a 3-hour window, a global range
set, a one-day partition and a two-day compressed month span. -/
theorem c7_extra_query_emission_witness :
    (create_queries_for_date_range 3 "logs-2024.02.05" (some (122, 123)) false 5
        (5 + 1)).countP (·.isExtraFile) = 1 ∧
    (create_queries_for_date_range 3 "logs-2024.02" (some (122, 123)) true 5
        (5 + 2)).countP (·.isExtraFile) = 1 :=
  c7_extra_query_emission 3 "logs-2024.02.05" (some (122, 123)) 5 2 (by norm_num)

/-- C7 counterexample: a day-granularity partition WITHOUT a global time
range still emits one extra SubQuery — the claim's "emitted precisely when a
global time range is set" predicts zero here. -/
theorem c7_counterexample :
    (create_queries_for_date_range 4 "logs-2024.01.01" none false 0 1).countP
      (·.isExtraFile) = 1 := by
  decide

/-- Helper: for an instant `t` inside the global range `[gte, lte)`, the
clause of the SubQuery that `append_query` emits (if any) for the regular
window `[s, e)` holds at `t` exactly when `t` lies in the natural window
`[s, e)` — covering all four cases: which end of the intersection wins, and
whether the intersection is empty. -/

theorem append_query_window_holds (ind : String) (startDay endDay s e : ℤ)
    (gte lte t : ℚ) (hgt : gte ≤ t) (hlt : t < lte) :
    (((append_query ind (some (gte, lte)) startDay endDay s e false).map
        (fun sq => sq.clause t)).getD false) = true
      ↔ ((s : ℚ) ≤ t ∧ t < (e : ℚ)) := by
  unfold append_query intersect_time_ranges
  simp only [Bool.false_eq_true, if_false]
  by_cases hcmp : (e : ℚ) < lte
  · simp only [if_pos hcmp]
    by_cases hmax : (s : ℚ) ⊔ gte ≤ (e : ℚ)
    · rw [if_pos hmax]
      simp only [Option.map_some', Option.getD_some, regularClause,
        Bool.false_eq_true, if_false, Bool.and_eq_true, decide_eq_true_eq,
        sup_le_iff]
      constructor
      · rintro ⟨⟨h1, _⟩, h2⟩; exact ⟨h1, h2⟩
      · rintro ⟨h1, h2⟩; exact ⟨⟨h1, hgt⟩, h2⟩
    · rw [if_neg hmax]
      simp only [Option.map_none', Option.getD_none, Bool.false_eq_true,
        false_iff, not_and, not_lt]
      intro h1
      by_contra hcon
      push_neg at hcon
      exact hmax (sup_le (h1.trans hcon.le) (hgt.trans hcon.le))
  · simp only [if_neg hcmp]
    by_cases hmax : (s : ℚ) ⊔ gte ≤ lte
    · rw [if_pos hmax]
      simp only [Option.map_some', Option.getD_some, regularClause,
        eq_self_iff_true, if_true, Bool.and_eq_true, decide_eq_true_eq,
        sup_le_iff]
      constructor
      · rintro ⟨⟨h1, _⟩, _⟩; exact ⟨h1, lt_of_lt_of_le hlt (not_lt.mp hcmp)⟩
      · rintro ⟨h1, _⟩; exact ⟨⟨h1, hgt⟩, le_of_lt hlt⟩
    · rw [if_neg hmax]
      simp only [Option.map_none', Option.getD_none, Bool.false_eq_true,
        false_iff, not_and, not_lt]
      intro h1
      exact absurd (sup_le (h1.trans hlt.le) (hgt.trans hlt.le)) hmax

/-- Helper: a list without duplicates on which a predicate singles out
exactly one element has predicate count 1. -/
theorem countP_eq_one_of_unique {α : Type} {p : α → Bool} :
    ∀ {l : List α}, l.Nodup → ∀ {x : α}, x ∈ l → p x = true →
      (∀ y ∈ l, p y = true → y = x) → l.countP p = 1 := by
  intro l
  induction l with
  | nil => intro _ x hx; cases hx
  | cons a l ih =>
    intro hnd x hx hpx hu
    have hnd' := List.nodup_cons.mp hnd
    rw [List.countP_cons]
    rcases List.mem_cons.mp hx with rfl | hx'
    · have h0 : l.countP p = 0 := by
        rw [List.countP_eq_zero]
        intro b hb hpb
        have hbx := hu b (List.mem_cons_of_mem _ hb) hpb
        subst hbx
        exact hnd'.1 hb
      rw [h0, hpx]
      rfl
    · cases hp : p a with
      | false =>
        rw [ih hnd'.2 hx' hpx (fun y hy hpy => hu y (List.mem_cons_of_mem _ hy) hpy)]
        rfl
      | true =>
        exfalso
        have ha : a = x := hu a (List.mem_cons_self _ _) hp
        rw [ha] at hnd'
        exact hnd'.1 hx'

/-- Helper: for an instant `t` inside the global range and inside the
partition day, exactly one of the day's regular hour windows emits a clause
holding at `t` (the window starting at hour `w * (floor(t') / w)` of the
day, `t'` the offset of `t` into the day). -/
theorem day_regular_count_one (w : ℕ) (hw : 1 ≤ w) (ind : String)
    (startDay endDay day : ℤ) (gte lte t : ℚ) (hgt : gte ≤ t) (hlt : t < lte)
    (hd0 : ((24 * day : ℤ) : ℚ) ≤ t) (hd1 : t < ((24 * day : ℤ) : ℚ) + 24) :
    (day_regular_queries w ind (some (gte, lte)) startDay endDay day).countP
      (fun sq => sq.clause t) = 1 := by
  push_cast at hd0 hd1
  rw [day_regular_queries, day_hours, List.countP_filterMap, List.countP_filter]
  have hchar : ∀ h : ℕ,
      (((((append_query ind (some (gte, lte)) startDay endDay (24 * day + (h : ℤ))
            (24 * day + (if 24 < h + w then 24 else ((h : ℤ) + (w : ℤ)))) false).map
          (fun sq => sq.clause t)).getD false)) && decide (h < 24)) = true
        ↔ ((h : ℚ) ≤ t - 24 * (day : ℚ) ∧ t - 24 * (day : ℚ) < (h : ℚ) + w
            ∧ h < 24) := by
    intro h
    rw [Bool.and_eq_true, decide_eq_true_eq,
      append_query_window_holds ind startDay endDay _ _ gte lte t hgt hlt]
    by_cases hcl : 24 < h + w
    · rw [if_pos hcl]
      have hw24 : (24 : ℚ) < (h : ℚ) + (w : ℚ) := by exact_mod_cast hcl
      constructor
      · rintro ⟨⟨h1, h2⟩, h3⟩
        push_cast at h1 h2
        exact ⟨by linarith, by linarith, h3⟩
      · rintro ⟨h1, h2, h3⟩
        refine ⟨⟨by push_cast; linarith, by push_cast; linarith⟩, h3⟩
    · rw [if_neg hcl]
      constructor
      · rintro ⟨⟨h1, h2⟩, h3⟩
        push_cast at h1 h2
        exact ⟨by linarith, by linarith, h3⟩
      · rintro ⟨h1, h2, h3⟩
        refine ⟨⟨by push_cast; linarith, by push_cast; linarith⟩, h3⟩
  have hflnn : 0 ≤ ⌊t - 24 * (day : ℚ)⌋ := Int.floor_nonneg.mpr (by linarith)
  have hNZ : ((⌊t - 24 * (day : ℚ)⌋.toNat : ℤ)) = ⌊t - 24 * (day : ℚ)⌋ :=
    Int.toNat_of_nonneg hflnn
  set N : ℕ := ⌊t - 24 * (day : ℚ)⌋.toNat with hNdef
  have hNle : (N : ℚ) ≤ t - 24 * (day : ℚ) := by
    have h1 : ((⌊t - 24 * (day : ℚ)⌋ : ℤ) : ℚ) ≤ t - 24 * (day : ℚ) :=
      Int.floor_le _
    rw [← hNZ] at h1
    exact_mod_cast h1
  have hNlt : t - 24 * (day : ℚ) < (N : ℚ) + 1 := by
    have h1 := Int.lt_floor_add_one (t - 24 * (day : ℚ))
    rw [← hNZ] at h1
    exact_mod_cast h1
  have hN24 : N < 24 := by
    by_contra hcon
    push_neg at hcon
    have : (24 : ℚ) ≤ (N : ℚ) := by exact_mod_cast hcon
    linarith
  have hh0le : w * (N / w) ≤ N := Nat.mul_div_le N w
  have hh0lt : N < w * (N / w) + w := by
    have hmod := Nat.div_add_mod N w
    have hmlt := Nat.mod_lt N (show 0 < w by omega)
    omega
  have hh024 : w * (N / w) < 24 := lt_of_le_of_lt hh0le hN24
  have hKlt : N / w < (24 + w) / w := by
    have h1 : N / w * w ≤ N := Nat.div_mul_le_self N w
    have h2 : (N / w + 1) * w ≤ 24 + w := by
      rw [Nat.add_mul, Nat.one_mul]
      exact le_trans
        (Nat.add_le_add_right (le_trans h1 (Nat.le_of_lt_succ hN24)) w)
        (by omega)
    have h3 : N / w + 1 ≤ (24 + w) / w :=
      (Nat.le_div_iff_mul_le (by omega)).mpr h2
    omega
  have hmem : w * (N / w) ∈ List.range' 0 ((24 + w) / w) w :=
    List.mem_range'.mpr ⟨N / w, hKlt, by rw [Nat.zero_add]⟩
  apply countP_eq_one_of_unique (List.nodup_range' 0 ((24 + w) / w) w (by omega))
    hmem
  · rw [hchar]
    refine ⟨?_, ?_, hh024⟩
    · exact le_trans (by exact_mod_cast hh0le) hNle
    · have : (N : ℚ) + 1 ≤ (w * (N / w) : ℕ) + (w : ℚ) := by
        have : N + 1 ≤ w * (N / w) + w := hh0lt
        exact_mod_cast this
      linarith
  · intro y hy hpy
    obtain ⟨j, hj, hyj⟩ := List.mem_range'.mp hy
    rw [Nat.zero_add] at hyj
    obtain ⟨k1, k2, _⟩ := (hchar y).mp hpy
    have hyN1 : y ≤ N := by
      have hle : ((y : ℤ)) ≤ ⌊t - 24 * (day : ℚ)⌋ :=
        Int.le_floor.mpr (by exact_mod_cast k1)
      omega
    have hyN2 : N < y + w := by
      have hfl : ((⌊t - 24 * (day : ℚ)⌋ : ℤ) : ℚ) ≤ t - 24 * (day : ℚ) :=
        Int.floor_le _
      have hlt2 : ((⌊t - 24 * (day : ℚ)⌋ : ℤ) : ℚ) < (y : ℚ) + w :=
        lt_of_le_of_lt hfl k2
      have hlt3 : ⌊t - 24 * (day : ℚ)⌋ < (y : ℤ) + w := by exact_mod_cast hlt2
      omega
    have hdiv : N / w = j := by
      apply Nat.div_eq_of_lt_le
      · rw [Nat.mul_comm]
        rw [hyj] at hyN1
        exact hyN1
      · rw [Nat.add_mul, Nat.one_mul, Nat.mul_comm j w, ← hyj]
        exact hyN2
    rw [hyj, ← hdiv]
/-- C1 amended: exact cover within the global range.  For every window size
`w ∈ [1, 12]`, every global range `[gte, lte)` and every day-granularity
partition (day `d`) spanning that range, every instant `t ∈ [gte, lte)`
satisfies the time clause of EXACTLY ONE emitted SubQuery (regular windows
and extra query together): no gap, no double counting inside the range.
(The original claim's stronger "no instant whatsoever satisfies two emitted
clauses" fails at the instant `lte` itself — see the counterexample.) -/

theorem c1_day_partition_exact_cover (w : ℕ) (hw1 : 1 ≤ w) (_hw2 : w ≤ 12)
    (ind : String) (d : ℤ) (gte lte t : ℚ)
    (hg : ((24 * d : ℤ) : ℚ) ≤ gte) (hl : lte ≤ ((24 * d : ℤ) : ℚ) + 24)
    (ht1 : gte ≤ t) (ht2 : t < lte) :
    (create_queries_for_date_range w ind (some (gte, lte)) false d
        (d + 1)).countP (fun sq => sq.clause t) = 1 := by
  unfold create_queries_for_date_range
  have hfuel : (d + 1 - d).toNat = 1 := by omega
  rw [hfuel, create_queries_loop, create_queries_loop]
  simp only [Bool.false_eq_true, if_false, false_and, List.append_nil]
  rw [List.countP_append]
  have hday := day_regular_count_one w hw1 ind d (d + 1) d gte lte t ht1 ht2
    (le_trans hg ht1) (lt_of_lt_of_le ht2 hl)
  rw [hday]
  have h1 : ¬ (t < ((24 * d : ℤ) : ℚ)) := not_lt.mpr (le_trans hg ht1)
  have h2 : ¬ (((24 * (d + 1) : ℤ) : ℚ) ≤ t) := by
    push_cast
    push_cast at hl
    intro hcon
    linarith
  simp [append_query, extraClause, h1, h2]
  push_cast at h1 h2
  rintro (hc | hc) _
  · exact absurd hc h1
  · exact absurd hc h2

/-- C1 witness: the amended statement for a 4-hour window, range
`[02:00, 08:00)` of day 0, at the instant 03:00. -/
theorem c1_day_partition_exact_cover_witness :
    (create_queries_for_date_range 4 "logs-1970.01.01" (some (2, 8)) false 0
        (0 + 1)).countP (fun sq => sq.clause 3) = 1 :=
  c1_day_partition_exact_cover 4 (by norm_num) (by norm_num) "logs-1970.01.01"
    0 2 8 3 (by norm_num) (by norm_num) (by norm_num) (by norm_num)

/-- C1 counterexample: the instant `lte` itself (08:00, a window boundary
strictly inside the day) satisfies the clauses of TWO distinct emitted
SubQueries — the window `[04:00, 08:00)` whose intersection end is the
global `lte` (upper bound relaxed to `<=`), and the degenerate window
`[08:00, 12:00)` whose intersection `[08:00, 08:00]` is kept because
`intersect_time_ranges` keeps single-instant intersections and is likewise
relaxed.  So "no instant satisfies the time clauses of two distinct emitted
SubQueries", read over all instants, is false. -/
theorem c1_counterexample :
    (create_queries_for_date_range 4 "logs-1970.01.01" (some (2, 8)) false 0
        1).countP (fun sq => sq.clause 8) = 2 := by
  decide
